import Mathlib

/-!
Shallow embedding of the scoring/oracle layer of `src/utils/scores.py`
(ChemFlow). Python floats are modelled as `ℚ` (the relevant arithmetic is
exact), external cheminformatics routines (RDKit parsing, Crippen logP, the
TDC synthetic-accessibility oracle, Morgan fingerprints) are abstracted as
function parameters, and the filesystem / subprocess effects of the docking
pipeline are made explicit as state.
-/

namespace ChemFlow

/-- Python exceptions that the code under study can raise or suppress. -/
inductive PyExc where
  | fileNotFoundError
  | timeoutExpired
  | indexError
  | valueError
  | argumentError
  deriving DecidableEq, Repr

/-- The part of an RDKit `Chem.Mol` that `scores.py` observes: the ring
information `mol.GetRingInfo().AtomRings()`, a list of rings, each a tuple of
atom indices. -/
structure Mol where
  rings : List (List Nat)
  deriving DecidableEq, Repr

/-- `TIMEOUT = 30` from `scores.py`. -/
def TIMEOUT : Nat := 30

/-! ### Analytic oracle `_smiles2uplogp` (scores.py lines 93-124) -/

/-- Embedding of `_smiles2uplogp`.  The externals are parameters:
`parseMol` models `Chem.MolFromSmiles` (`none` = RDKit returns `None`),
`logp` models `mol2logp` (RDKit Crippen `MolLogP`), and `sa` models the TDC
oracle `smiles2sa`.  Both ring-penalty variants of the source are computed
(`plogp1` per-ring flat penalty, `plogp2` max-cycle-length penalty); as in the
source, `plogp1` is returned. -/
def _smiles2uplogp (parseMol : String → Option Mol) (logp : Mol → ℚ)
    (sa : String → ℚ) (smiles : String) : ℚ :=
  match parseMol smiles with
  | none => -100
  | some mol =>
    let plogp : ℚ := logp mol - sa smiles
    -- method1 (LIMO): for ring in AtomRings(): if len(ring) > 6: plogp1 -= 1
    let plogp1 : ℚ := mol.rings.foldl
      (fun acc ring => if 6 < ring.length then acc - 1 else acc) plogp
    -- method2 (JT-VAE): subtract max(max cycle length - 6, 0)
    let cycleLength : Nat :=
      match mol.rings with
      | [] => 0
      | l => (l.map List.length).foldl max 0
    -- Nat subtraction is truncated, so this is Python's max(cycle_length - 6, 0)
    let plogp2 : ℚ := plogp - ((cycleLength - 6 : Nat) : ℚ)
    -- the source computes plogp2 but returns plogp1
    let _unused : ℚ := plogp2
    plogp1

/-- Embedding of the dispatching wrapper `smiles2uplogp` on the batch shape
(the single-string shape is `_smiles2uplogp` itself). -/
def smiles2uplogpBatch (parseMol : String → Option Mol) (logp : Mol → ℚ)
    (sa : String → ℚ) (batch : List String) : List ℚ :=
  batch.map (_smiles2uplogp parseMol logp sa)

/-! ### Normalization utility `normalize` (scores.py lines 65-75) -/

/-- A value passed to `normalize`: either a plain Python float (which has no
`torch.norm`, so the unit-norm branch raises `AttributeError` on it) or a 1-D
torch tensor of floats. -/
inductive TorchVal where
  | scalar (q : ℚ)
  | tensor (v : List ℚ)
  deriving DecidableEq, Repr

/-- Embedding of `normalize(x, step_size=None, relative=False)`.
`normFn` abstracts `torch.norm(x, dim=-1, keepdim=True)` on a 1-D tensor (a
floating-point square root, kept abstract); broadcasting divides each entry by
it.  On a scalar the `torch.norm` call raises `AttributeError`, which the
source catches by returning `x` unchanged. -/
def normalize (normFn : List ℚ → ℚ) (x : TorchVal) (stepSize : Option ℚ)
    (relative : Bool) : TorchVal :=
  match stepSize with
  | none => x
  | some step =>
    if relative then
      match x with
      | .scalar q => .scalar (q * step)
      | .tensor v => .tensor (v.map (· * step))
    else
      match x with
      | .scalar q => .scalar q   -- AttributeError caught: return x
      | .tensor v => .tensor (v.map (fun a => a / normFn v * step))

/-! ### Similarity `molssim` / `ssim` (scores.py lines 245-268) -/

/-- `fpg.GetFingerprint` applied to the result of `Chem.MolFromSmiles`: on
`None` (unparseable SMILES) the RDKit binding raises; on a molecule it returns
its Morgan fingerprint, abstracted as `fp`. -/
def getFingerprint (fp : Mol → List Bool) :
    Option Mol → Except PyExc (List Bool)
  | none => .error .argumentError
  | some m => .ok (fp m)

/-- Embedding of `molssim` as called from `ssim`: fingerprints both arguments
(raising on `None`), then Tanimoto similarity, abstracted as `tanimoto`. -/
def molssim (fp : Mol → List Bool) (tanimoto : List Bool → List Bool → ℚ)
    (m1 m2 : Option Mol) : Except PyExc ℚ := do
  let f1 ← getFingerprint fp m1
  let f2 ← getFingerprint fp m2
  return tanimoto f1 f2

/-- Embedding of `ssim`: parse both SMILES strings, then `molssim`. -/
def ssim (parseMol : String → Option Mol) (fp : Mol → List Bool)
    (tanimoto : List Bool → List Bool → ℚ) (s1 s2 : String) :
    Except PyExc ℚ :=
  molssim fp tanimoto (parseMol s1) (parseMol s2)

/-! ### Filesystem model for the scratch directory (scores.py lines 155-165)

Paths are lists of components (as a real filesystem resolves them), a
filesystem state is the list of existing paths. -/

/-- A filesystem path, as a list of components. -/
abbrev FsPath := List String

/-- `shutil.rmtree(p, ignore_errors=True)`: removes `p` and everything below
it; component-wise prefix matching, as directory containment works. -/
def rmtree (p : FsPath) (fs : List FsPath) : List FsPath :=
  fs.filter (fun q => !(p.isPrefixOf q))

/-- The scratch directory `Path(output_path) / f"chemflow_{_run}"` created by
`smiles2affinity` from the 32-bit random tag `_run`. -/
def scratchDir (outputPath : FsPath) (run : Nat) : FsPath :=
  outputPath ++ ["chemflow_" ++ Nat.repr run]

/-- The filesystem shape of `smiles2affinity` (lines 155-165): make the
scratch directory, run the body `__smiles2affinity` — abstracted as an
arbitrary filesystem transformer `inner` that may also end in an exception —
and unconditionally `shutil.rmtree` the scratch directory in the `finally`
block (after which the exception, if any, propagates). -/
def smiles2affinityFs (outputPath : FsPath) (run : Nat)
    (inner : List FsPath → List FsPath × Option PyExc)
    (fs : List FsPath) : List FsPath × Option PyExc :=
  let scratch := scratchDir outputPath run
  -- output_path.mkdir(parents=True, exist_ok=True)
  let fs1 := scratch :: fs
  let (fs2, exc) := inner fs1
  -- finally: shutil.rmtree(output_path, ignore_errors=True)
  (rmtree scratch fs2, exc)

/-! ### Docking pipeline `__smiles2affinity` (scores.py lines 168-242) -/

/-- A SMILES input in either of its two shapes: a single string or a batch. -/
inductive SmilesIn where
  | single (s : String)
  | batch (l : List String)
  deriving DecidableEq, Repr

/-- The list the body iterates over (`smiles = [smiles]` for a single
string). -/
def SmilesIn.toList : SmilesIn → List String
  | .single s => [s]
  | .batch l => l

/-- An oracle result in either of its two shapes. -/
inductive ScoreOut where
  | scalar (q : ℚ)
  | list (l : List ℚ)
  deriving DecidableEq, Repr

/-- The one `subprocess.run` docking invocation: its `timeout=` argument and
whether the batch form (`-B {output_path}/*.pdbqt`) or the single form
(`-L {output_path}/0.pdbqt`) of the command line is used. -/
structure DockCmd where
  timeout : Nat
  batchFlag : Bool
  deriving DecidableEq, Repr

/-- The docking invocations issued by `__smiles2affinity` for a given input:
exactly one `subprocess.run`, with `timeout=TIMEOUT` in the single-string
branch and `timeout=TIMEOUT * n` in the batch branch. -/
def dockCmds (inp : SmilesIn) : List DockCmd :=
  match inp with
  | .single _ => [⟨TIMEOUT, false⟩]
  | .batch l => [⟨TIMEOUT * l.length, true⟩]

/-- Environment of one pipeline run: whether the docking subprocess exceeds
its timeout, and the content of each `{i}.dlg` log file in the scratch
directory after docking (`none` = the file is absent). -/
structure DockEnv where
  dockTimesOut : Bool
  dlg : Nat → Option String

/-- The docking subprocess call, which raises `subprocess.TimeoutExpired`
when the timeout expires. -/
def runDocking (env : DockEnv) : Except PyExc Unit :=
  if env.dockTimesOut then .error .timeoutExpired else .ok ()

/-- `with contextlib.suppress(subprocess.TimeoutExpired): ...` around the
docking call. -/
def suppressTimeout (r : Except PyExc Unit) : Except PyExc Unit :=
  match r with
  | .error .timeoutExpired => .ok ()
  | r => r

/-- Split a character list at every character satisfying `p`, keeping empty
pieces (the semantics of splitting on each separator occurrence). -/
def splitChars (p : Char → Bool) : List Char → List (List Char)
  | [] => [[]]
  | c :: rest =>
    if p c then [] :: splitChars p rest
    else
      match splitChars p rest with
      | [] => [[c]]
      | piece :: pieces => (c :: piece) :: pieces

/-- Python `s.splitlines()` on the log content, which the source iterates over
line by line (the logs are '\n'-terminated text). -/
def splitLines (s : String) : List (List Char) :=
  splitChars (fun c => c = '\n') s.toList

/-- Python `str.split()` with no separator: split on whitespace runs,
discarding empty pieces. -/
def pySplit (line : List Char) : List (List Char) :=
  (splitChars Char.isWhitespace line).filter (fun w => w ≠ [])

/-- Python `float(s)` on plain decimal numerals, the shape the docking log's
RANKING field takes: optional sign, then digits with an optional decimal
point.  Returns `none` when `float` would raise `ValueError` (exotic accepted
forms such as exponents or `inf` are out of the model's scope). -/
def pyFloat (s : List Char) : Option ℚ :=
  let digitsVal : List Char → Nat :=
    fun l => l.foldl (fun a c => a * 10 + (c.toNat - 48)) 0
  let core : List Char → Option ℚ := fun body =>
    match splitChars (fun c => c = '.') body with
    | [i] =>
      if i ≠ [] ∧ i.all Char.isDigit then some (digitsVal i : ℚ) else none
    | [i, f] =>
      if (i ≠ [] ∨ f ≠ []) ∧ (i ++ f).all Char.isDigit then
        some ((digitsVal i : ℚ) + (digitsVal f : ℚ) / (10 : ℚ) ^ f.length)
      else none
    | _ => none
  match s with
  | '-' :: rest => (core rest).map (fun v => -v)
  | '+' :: rest => core rest
  | l => core l

/-- The degenerate zero-pose sentinel the parser looks for in the whole log
content. -/
def zeroPoseSentinel : String := "0.000   0.000   0.000  0.00  0.00"

/-- The marker of a ranked-pose line in a docking log. -/
def rankingMarker : String := "RANKING"

/-- Whether `pat` occurs as a contiguous run inside `l` (Python's `in` test
for strings). -/
def containsSeq (pat : List Char) : List Char → Bool
  | [] => pat.isEmpty
  | c :: rest => pat.isPrefixOf (c :: rest) || containsSeq pat rest

/-- The per-index body of the parsing loop (lines 231-241), for the content of
`{i}.dlg` (`none` = `open` raises `FileNotFoundError`, which
`contextlib.suppress` turns into keeping the 0 default).  A present file:
if the whole content contains the zero-pose sentinel the 0 default is kept;
otherwise the first line containing `RANKING` is split on whitespace and its
field 3 is passed to `float`, where a missing field raises `IndexError` and a
non-numeric field raises `ValueError` — neither of which is suppressed. -/
def parseDlg (content : Option String) : Except PyExc ℚ :=
  match content with
  | none => .ok 0
  | some lines =>
    if containsSeq zeroPoseSentinel.toList lines.toList then .ok 0
    else
      match (splitLines lines).find?
          (fun line => containsSeq rankingMarker.toList line) with
      | none => .ok 0
      | some line =>
        match (pySplit line).get? 3 with
        | none => .error .indexError
        | some field =>
          match pyFloat field with
          | none => .error .valueError
          | some q => .ok q

/-- The parsing loop over indices `0..n-1`: an exception at one index
propagates out of `__smiles2affinity`, abandoning the remaining indices. -/
def parseLoop (dlg : Nat → Option String) : List Nat → Except PyExc (List ℚ)
  | [] => .ok []
  | i :: is =>
    match parseDlg (dlg i) with
    | .error e => .error e
    | .ok q =>
      match parseLoop dlg is with
      | .error e => .error e
      | .ok rest => .ok (q :: rest)

/-- Embedding of `__smiles2affinity`: generate structures (their effect is
captured by `env.dlg`), dock once with the timeout suppressed, then parse
`{i}.dlg` for each index; `results[0]` is returned for a single-string input
and `results.tolist()` for a batch. -/
def smiles2affinityRun (inp : SmilesIn) (env : DockEnv) :
    Except PyExc ScoreOut :=
  match suppressTimeout (runDocking env) with
  | .error e => .error e
  | .ok _ =>
    match parseLoop env.dlg (List.range inp.toList.length) with
    | .error e => .error e
    | .ok results =>
      match inp with
      | .single _ => .ok (.scalar (results.getD 0 0))
      | .batch _ => .ok (.list results)

/-- "Modelled from the spec": the external TDC oracles
(`smiles2sa`, `smiles2qed`, ..., bound via `Oracle(name=...)`), whose code is
not in this repository.  The spec fixes only their contract — each is a
batch-capable scorer whose output shape mirrors the input shape, applying a
scalar scorer `f` elementwise in order. -/
def elementwiseOracle (f : String → ℚ) : SmilesIn → ScoreOut
  | .single s => .scalar (f s)
  | .batch l => .list (l.map f)

/-- The in-shape dispatcher of `smiles2uplogp` expressed on `SmilesIn`. -/
def smiles2uplogpOracle (parseMol : String → Option Mol) (logp : Mol → ℚ)
    (sa : String → ℚ) : SmilesIn → ScoreOut
  | .single s => .scalar (_smiles2uplogp parseMol logp sa s)
  | .batch l => .list (smiles2uplogpBatch parseMol logp sa l)

/-! ### `delta_g_to_kd` (scores.py lines 127-128) -/

/-- Embedding of `delta_g_to_kd`: `math.exp(x / (0.00198720425864083 *
298.15))`, over the reals. -/
noncomputable def delta_g_to_kd (x : ℝ) : ℝ :=
  Real.exp (x / (0.00198720425864083 * 298.15))

/-! ## Helper lemmas -/

/-- The per-ring penalty loop subtracts one from the accumulator for each ring
with more than 6 atoms. -/
theorem foldl_ring_penalty (rings : List (List Nat)) (acc : ℚ) :
    rings.foldl (fun a ring => if 6 < ring.length then a - 1 else a) acc
      = acc - ((rings.filter (fun r => 6 < r.length)).length : ℚ) := by
  induction rings generalizing acc with
  | nil => simp
  | cons r rs ih =>
    by_cases hr : 6 < r.length
    · simp only [List.foldl_cons, hr, if_true, ih, List.filter_cons,
        decide_eq_true_eq]
      push_cast [List.length_cons]
      ring
    · simp only [List.foldl_cons, hr, if_false, ih, List.filter_cons,
        decide_eq_true_eq]

/-- The docking step never lets `TimeoutExpired` escape: whatever the
environment, the suppressed docking call evaluates to success. -/
theorem suppressTimeout_runDocking (env : DockEnv) :
    suppressTimeout (runDocking env) = .ok () := by
  unfold suppressTimeout runDocking
  cases env.dockTimesOut <;> simp

/-- If each listed index parses successfully, the parse loop succeeds with
the pointwise results. -/
theorem parseLoop_ok_of_pointwise (dlg : Nat → Option String) (f : Nat → ℚ) :
    ∀ is : List Nat, (∀ i ∈ is, parseDlg (dlg i) = .ok (f i)) →
      parseLoop dlg is = .ok (is.map f)
  | [], _ => rfl
  | i :: is, h => by
    have hi := h i (by simp)
    have ht := parseLoop_ok_of_pointwise dlg f is
      (fun j hj => h j (by simp [hj]))
    simp [parseLoop, hi, ht]

/-- A successful parse loop returns one value per listed index, the value the
per-index parser produced for that index. -/
theorem parseLoop_ok_inv (dlg : Nat → Option String) :
    ∀ (is : List Nat) (res : List ℚ), parseLoop dlg is = .ok res →
      res.length = is.length ∧
      ∀ (k i : Nat), is[k]? = some i →
        ∃ q, res[k]? = some q ∧ parseDlg (dlg i) = .ok q
  | [], res, h => by
    simp only [parseLoop, Except.ok.injEq] at h
    subst h
    exact ⟨rfl, by simp⟩
  | i :: is, res, h => by
    simp only [parseLoop] at h
    cases hi : parseDlg (dlg i) with
    | error e => rw [hi] at h; cases h
    | ok q =>
      rw [hi] at h
      cases ht : parseLoop dlg is with
      | error e => rw [ht] at h; cases h
      | ok rest =>
        rw [ht] at h
        cases h
        obtain ⟨hlen, hptw⟩ := parseLoop_ok_inv dlg is rest ht
        refine ⟨by simp [hlen], ?_⟩
        intro k j hk
        cases k with
        | zero =>
          simp only [List.getElem?_cons_zero, Option.some.injEq] at hk
          subst hk
          exact ⟨q, by simp, hi⟩
        | succ k =>
          simp only [List.getElem?_cons_succ] at hk ⊢
          exact hptw k j hk

/-- `Nat.digitChar` is injective on decimal digits. -/
theorem digitChar_inj_lt :
    ∀ a < 10, ∀ b < 10, Nat.digitChar a = Nat.digitChar b → a = b := by
  decide

/-- Lists of decimal digits with equal `digitChar` images are equal. -/
theorem map_digitChar_inj : ∀ (l1 l2 : List Nat),
    (∀ x ∈ l1, x < 10) → (∀ x ∈ l2, x < 10) →
    l1.map Nat.digitChar = l2.map Nat.digitChar → l1 = l2
  | [], [], _, _, _ => rfl
  | [], _ :: _, _, _, h => by simp at h
  | _ :: _, [], _, _, h => by simp at h
  | x :: xs, y :: ys, h1, h2, h => by
    simp only [List.map_cons, List.cons.injEq] at h
    have hx := digitChar_inj_lt x (h1 x (by simp)) y (h2 y (by simp)) h.1
    have := map_digitChar_inj xs ys (fun a ha => h1 a (by simp [ha]))
      (fun a ha => h2 a (by simp [ha])) h.2
    rw [hx, this]

/-- With enough fuel, `Nat.toDigitsCore` writes the decimal digits of `n`
(most significant first) in front of the accumulator. -/
theorem toDigitsCore_eq_digits : ∀ (fuel n : Nat) (ds : List Char),
    0 < n → n ≤ fuel →
    Nat.toDigitsCore 10 fuel n ds
      = ((Nat.digits 10 n).map Nat.digitChar).reverse ++ ds := by
  intro fuel
  induction fuel with
  | zero => intro n ds hn hf; omega
  | succ fuel ih =>
    intro n ds hn hf
    have hdig : Nat.digits 10 n = n % 10 :: Nat.digits 10 (n / 10) :=
      Nat.digits_def' (by norm_num : 1 < 10) hn
    by_cases h10 : n / 10 = 0
    · have hlt : n < 10 := by
        by_contra hge
        have : 0 < n / 10 := Nat.div_pos (by omega) (by norm_num)
        omega
      rw [hdig, h10]
      simp [Nat.toDigitsCore, h10, Nat.mod_eq_of_lt hlt]
    · have hpos : 0 < n / 10 := Nat.pos_of_ne_zero h10
      have hle : n / 10 ≤ fuel := by
        have := Nat.div_lt_self hn (by norm_num : 1 < 10)
        omega
      have hstep : Nat.toDigitsCore 10 (fuel + 1) n ds
          = Nat.toDigitsCore 10 fuel (n / 10) (Nat.digitChar (n % 10) :: ds) := by
        simp [Nat.toDigitsCore, h10]
      rw [hstep, ih (n / 10) _ hpos hle, hdig]
      simp

/-- The decimal representation `Nat.repr` (the `str()` used in the f-string
naming the scratch directory) is injective. -/
theorem natRepr_inj : ∀ m n : Nat, Nat.repr m = Nat.repr n → m = n := by
  have hrepr : ∀ k : Nat, 0 < k →
      Nat.repr k = (((Nat.digits 10 k).map Nat.digitChar).reverse).asString := by
    intro k hk
    unfold Nat.repr Nat.toDigits
    rw [toDigitsCore_eq_digits (k + 1) k [] hk (by omega), List.append_nil]
  have hdig_of : ∀ m n : Nat, 0 < m → 0 < n →
      Nat.repr m = Nat.repr n → Nat.digits 10 m = Nat.digits 10 n := by
    intro m n hm hn h
    rw [hrepr m hm, hrepr n hn, List.asString_inj, List.reverse_inj] at h
    exact map_digitChar_inj _ _
      (fun x hx => Nat.digits_lt_base (by norm_num) hx)
      (fun x hx => Nat.digits_lt_base (by norm_num) hx) h
  have hzero : ∀ n : Nat, 0 < n → Nat.repr 0 ≠ Nat.repr n := by
    intro n hn h
    have h0 : Nat.repr 0 = (['0'] : List Char).asString := rfl
    rw [h0, hrepr n hn, List.asString_inj] at h
    have : Nat.digits 10 n = [0] := by
      have hmap : (Nat.digits 10 n).map Nat.digitChar = ['0'] := by
        have := congrArg List.reverse h
        simpa using this.symm
      exact map_digitChar_inj _ _
        (fun x hx => Nat.digits_lt_base (by norm_num) hx)
        (by simp) (by simpa using hmap)
    have hofd := Nat.ofDigits_digits 10 n
    rw [this] at hofd
    simp [Nat.ofDigits_cons, Nat.ofDigits_nil] at hofd
    omega
  intro m n h
  rcases Nat.eq_zero_or_pos m with hm | hm
  · rcases Nat.eq_zero_or_pos n with hn | hn
    · omega
    · subst hm; exact absurd h (hzero n hn)
  · rcases Nat.eq_zero_or_pos n with hn | hn
    · subst hn; exact absurd h.symm (hzero m hm)
    · have hd := hdig_of m n hm hn h
      have h1 := Nat.ofDigits_digits 10 m
      have h2 := Nat.ofDigits_digits 10 n
      rw [← h1, ← h2, hd]

/-- A boolean `isPrefixOf` witness is a real list prefix. -/
theorem isPrefixOf_exists_append :
    ∀ a b : List String, a.isPrefixOf b = true → ∃ t, a ++ t = b
  | [], b, _ => ⟨b, rfl⟩
  | _ :: _, [], h => by simp [List.isPrefixOf] at h
  | x :: xs, y :: ys, h => by
    simp only [List.isPrefixOf, Bool.and_eq_true, beq_iff_eq] at h
    obtain ⟨t, ht⟩ := isPrefixOf_exists_append xs ys h.2
    exact ⟨t, by rw [List.cons_append, ht, h.1]⟩

/-! ## Claims -/

/-- C4: a string that does not parse as a molecule makes `_smiles2uplogp`
return the sentinel -100; in a batched call the i-th result slot is exactly
the scalar score of the i-th input, so an unparseable element puts -100 into
its own slot without affecting any other slot (the embedding is a total
function, which models that no exception escapes). -/
theorem C4_uplogp_invalid_sentinel (parseMol : String → Option Mol)
    (logp : Mol → ℚ) (sa : String → ℚ) (s : String) (hs : parseMol s = none)
    (batch : List String) (i : Nat) :
    _smiles2uplogp parseMol logp sa s = -100 ∧
    (smiles2uplogpBatch parseMol logp sa batch).length = batch.length ∧
    (smiles2uplogpBatch parseMol logp sa batch)[i]?
      = (batch[i]?).map (_smiles2uplogp parseMol logp sa) := by
  refine ⟨?_, ?_, ?_⟩
  · simp [_smiles2uplogp, hs]
  · simp [smiles2uplogpBatch]
  · simp [smiles2uplogpBatch]

/-- Witness for C4 at concrete inputs. -/
theorem C4_uplogp_invalid_sentinel_wit :
    _smiles2uplogp (fun _ => none) (fun _ => 0) (fun _ => 0) "not a molecule"
      = -100 ∧
    (smiles2uplogpBatch (fun _ => none) (fun _ => 0) (fun _ => 0)
      ["C", "not a molecule"]).length = ["C", "not a molecule"].length ∧
    (smiles2uplogpBatch (fun _ => none) (fun _ => 0) (fun _ => 0)
      ["C", "not a molecule"])[1]?
      = ((["C", "not a molecule"] : List String)[1]?).map
          (_smiles2uplogp (fun _ => none) (fun _ => 0) (fun _ => 0)) :=
  C4_uplogp_invalid_sentinel (fun _ => none) (fun _ => 0) (fun _ => 0)
    "not a molecule" rfl ["C", "not a molecule"] 1

/-- C5: on a parseable SMILES string, `_smiles2uplogp` returns `logP -
syntheticAccessibility` minus 1 for each ring with more than 6 atoms (the
flat per-ring convention — the returned path); in particular a molecule whose
only ring is a single 7-membered one scores exactly 1 below the baseline. -/
theorem C5_uplogp_flat_ring_penalty (parseMol : String → Option Mol)
    (logp : Mol → ℚ) (sa : String → ℚ) (s : String) (m : Mol)
    (h : parseMol s = some m) :
    _smiles2uplogp parseMol logp sa s
      = logp m - sa s - ((m.rings.filter (fun r => 6 < r.length)).length : ℚ) ∧
    (∀ r : List Nat, m.rings = [r] → r.length = 7 →
      _smiles2uplogp parseMol logp sa s = logp m - sa s - 1) := by
  have hbase : _smiles2uplogp parseMol logp sa s
      = m.rings.foldl (fun a ring => if 6 < ring.length then a - 1 else a)
          (logp m - sa s) := by
    simp [_smiles2uplogp, h]
  constructor
  · rw [hbase, foldl_ring_penalty]
  · intro r hr h7
    rw [hbase, foldl_ring_penalty, hr]
    norm_num [List.filter_cons, h7]

/-- Witness for C5 at concrete inputs: one 7-membered ring. -/
theorem C5_uplogp_flat_ring_penalty_wit :
    _smiles2uplogp (fun _ => some ⟨[[0, 1, 2, 3, 4, 5, 6]]⟩) (fun _ => 5)
        (fun _ => 2) "mol"
      = (5 : ℚ) - 2 -
        (((Mol.mk [[0, 1, 2, 3, 4, 5, 6]]).rings.filter
          (fun r => 6 < r.length)).length : ℚ) ∧
    (∀ r : List Nat, (Mol.mk [[0, 1, 2, 3, 4, 5, 6]]).rings = [r] →
      r.length = 7 →
      _smiles2uplogp (fun _ => some ⟨[[0, 1, 2, 3, 4, 5, 6]]⟩) (fun _ => 5)
        (fun _ => 2) "mol" = (5 : ℚ) - 2 - 1) :=
  C5_uplogp_flat_ring_penalty (fun _ => some ⟨[[0, 1, 2, 3, 4, 5, 6]]⟩)
    (fun _ => 5) (fun _ => 2) "mol" ⟨[[0, 1, 2, 3, 4, 5, 6]]⟩ rfl

/-- C8: `normalize` is the identity when the step size is unset; with a step
size and `relative` it scalar-multiplies the input; otherwise it divides a
tensor by its trailing-axis norm and scales by the step size, and falls back
to returning a plain scalar unchanged (the `AttributeError` fallback). -/
theorem C8_normalize_policy (normFn : List ℚ → ℚ) (x : TorchVal) (rel : Bool)
    (step q : ℚ) (v : List ℚ) :
    normalize normFn x none rel = x ∧
    normalize normFn (.scalar q) (some step) true = .scalar (q * step) ∧
    normalize normFn (.tensor v) (some step) true
      = .tensor (v.map (· * step)) ∧
    normalize normFn (.scalar q) (some step) false = .scalar q ∧
    normalize normFn (.tensor v) (some step) false
      = .tensor (v.map (fun a => a / normFn v * step)) :=
  ⟨rfl, rfl, rfl, rfl, rfl⟩

/-- C9: `ssim` on a pair of strings of which at least one does not parse ends
in an exception (the fingerprint call on `None` raises), never in a
similarity score. -/
theorem C9_ssim_invalid_propagates (parseMol : String → Option Mol)
    (fp : Mol → List Bool) (tanimoto : List Bool → List Bool → ℚ)
    (s1 s2 : String) (h : parseMol s1 = none ∨ parseMol s2 = none) :
    ssim parseMol fp tanimoto s1 s2 = .error .argumentError := by
  unfold ssim
  rcases h with h | h
  · rw [h]
    rfl
  · rw [h]
    cases parseMol s1 <;> rfl

/-- Witness for C9 at concrete inputs. -/
theorem C9_ssim_invalid_propagates_wit :
    ssim (fun _ => none) (fun _ => []) (fun _ _ => 0) "not a molecule" "C"
      = .error .argumentError :=
  C9_ssim_invalid_propagates (fun _ => none) (fun _ => []) (fun _ _ => 0)
    "not a molecule" "C" (Or.inl rfl)

/-- C10: `delta_g_to_kd` is `exp(x / (0.00198720425864083 * 298.15))`; it is
everywhere positive, strictly increasing, and maps 0 to 1. -/
theorem C10_delta_g_to_kd_props :
    (∀ x : ℝ, delta_g_to_kd x
      = Real.exp (x / (0.00198720425864083 * 298.15))) ∧
    (∀ x : ℝ, 0 < delta_g_to_kd x) ∧
    StrictMono delta_g_to_kd ∧
    delta_g_to_kd 0 = 1 := by
  have hc : (0 : ℝ) < 0.00198720425864083 * 298.15 := by norm_num
  refine ⟨fun _ => rfl, fun x => Real.exp_pos _, ?_, ?_⟩
  · intro a b hab
    exact Real.exp_lt_exp.mpr ((div_lt_div_iff_of_pos_right hc).mpr hab)
  · simp [delta_g_to_kd]

/-- Witness for C10: positivity and strict growth at concrete points. -/
theorem C10_delta_g_to_kd_props_wit :
    0 < delta_g_to_kd 0 ∧ delta_g_to_kd 0 < delta_g_to_kd 1 :=
  ⟨C10_delta_g_to_kd_props.2.1 0,
   C10_delta_g_to_kd_props.2.2.1 (by norm_num : (0 : ℝ) < 1)⟩

/-- C1: after `smiles2affinity` returns or raises, nothing at or below the
per-call scratch directory exists: whatever the body did to the filesystem
and whether or not it raised, the `finally` block's `rmtree` has removed the
scratch directory and its contents. -/
theorem C1_scratch_removed (outputPath : FsPath) (run : Nat)
    (inner : List FsPath → List FsPath × Option PyExc) (fs : List FsPath)
    (p : FsPath) (hp : (scratchDir outputPath run).isPrefixOf p = true) :
    p ∉ (smiles2affinityFs outputPath run inner fs).1 := by
  intro hmem
  simp only [smiles2affinityFs, rmtree, List.mem_filter] at hmem
  rw [hp] at hmem
  exact absurd hmem.2 (by simp)

/-- C7: two invocations that draw distinct 32-bit random tags get distinct
scratch directories under the scratch root, and no path inside the one
invocation's scratch directory lies inside the other's — so neither touches
the other's conformer and log files. -/
theorem C7_scratch_unique (outputPath : FsPath) (t1 t2 : Nat)
    (_hb1 : t1 < 2 ^ 32) (_hb2 : t2 < 2 ^ 32) (hne : t1 ≠ t2) :
    scratchDir outputPath t1 ≠ scratchDir outputPath t2 ∧
    ∀ p : FsPath, (scratchDir outputPath t1).isPrefixOf p = true →
      (scratchDir outputPath t2).isPrefixOf p = false := by
  have hdir : scratchDir outputPath t1 ≠ scratchDir outputPath t2 := by
    intro h
    apply hne
    unfold scratchDir at h
    have htail := List.append_cancel_left h
    have hstr : "chemflow_" ++ Nat.repr t1 = "chemflow_" ++ Nat.repr t2 := by
      simpa using htail
    have hdata := congrArg String.data hstr
    simp only [String.data_append] at hdata
    exact natRepr_inj t1 t2 (String.ext (List.append_cancel_left hdata))
  refine ⟨hdir, fun p h1 => ?_⟩
  by_contra h2
  rw [Bool.not_eq_false] at h2
  obtain ⟨u, hu⟩ := isPrefixOf_exists_append _ _ h1
  obtain ⟨v, hv⟩ := isPrefixOf_exists_append _ _ h2
  rw [← hu] at hv
  have hlen : (scratchDir outputPath t2).length
      = (scratchDir outputPath t1).length := by
    simp [scratchDir]
  exact hdir (List.append_inj hv hlen).1.symm

/-- Witness for C7 at concrete tags 0 and 1. -/
theorem C7_scratch_unique_wit :
    scratchDir ["tmp"] 0 ≠ scratchDir ["tmp"] 1 ∧
    (scratchDir ["tmp"] 1).isPrefixOf (scratchDir ["tmp"] 0 ++ ["0.dlg"])
      = false := by
  have h := C7_scratch_unique ["tmp"] 0 1 (by norm_num) (by norm_num)
    (by norm_num)
  exact ⟨h.1, h.2 (scratchDir ["tmp"] 0 ++ ["0.dlg"]) rfl⟩

/-- Witness for C1: a body that creates a log file inside the scratch
directory and then raises; the file is gone afterwards. -/
theorem C1_scratch_removed_wit :
    (scratchDir ["tmp"] 7).isPrefixOf (scratchDir ["tmp"] 7 ++ ["0.dlg"])
      = true ∧
    (scratchDir ["tmp"] 7 ++ ["0.dlg"]) ∉
      (smiles2affinityFs ["tmp"] 7
        (fun fs => ((scratchDir ["tmp"] 7 ++ ["0.dlg"]) :: fs,
          some .timeoutExpired)) []).1 :=
  ⟨rfl, C1_scratch_removed ["tmp"] 7 _ [] _ rfl⟩

/-- C2 (amended): per-index log parsing.  An absent log yields 0; a log
containing the zero-pose sentinel yields 0; a log with no RANKING line yields
0; otherwise the first RANKING line's 4th whitespace field is the result when
it parses as a float; when every index parses successfully the batch loop
returns exactly the per-index values, each slot depending only on its own log
file.  However — the amendment — a present log whose first RANKING line lacks
a 4th field, or whose 4th field is not a float, raises (only
`FileNotFoundError` is suppressed), aborting the whole call. -/
theorem C2_dlg_parse :
    parseDlg none = .ok 0 ∧
    (∀ c : String, containsSeq zeroPoseSentinel.toList c.toList = true →
      parseDlg (some c) = .ok 0) ∧
    (∀ c : String, containsSeq zeroPoseSentinel.toList c.toList = false →
      (splitLines c).find? (fun line => containsSeq rankingMarker.toList line)
        = none →
      parseDlg (some c) = .ok 0) ∧
    (∀ (c : String) (line : List Char) (q : ℚ),
      containsSeq zeroPoseSentinel.toList c.toList = false →
      (splitLines c).find? (fun line => containsSeq rankingMarker.toList line)
        = some line →
      ((pySplit line).get? 3).bind pyFloat = some q →
      parseDlg (some c) = .ok q) ∧
    (∀ (dlg : Nat → Option String) (f : Nat → ℚ) (n : Nat),
      (∀ i, i < n → parseDlg (dlg i) = .ok (f i)) →
      parseLoop dlg (List.range n) = .ok ((List.range n).map f)) ∧
    (∀ (c : String) (line : List Char),
      containsSeq zeroPoseSentinel.toList c.toList = false →
      (splitLines c).find? (fun line => containsSeq rankingMarker.toList line)
        = some line →
      ((pySplit line).get? 3).bind pyFloat = none →
      ∃ e, parseDlg (some c) = .error e) := by
  refine ⟨rfl, ?_, ?_, ?_, ?_, ?_⟩
  · intro c hc
    have hc' : containsSeq zeroPoseSentinel.data c.data = true := hc
    simp [parseDlg, hc']
  · intro c hc hfind
    have hc' : containsSeq zeroPoseSentinel.data c.data = false := hc
    have hfind' : (splitLines c).find?
        (fun line => containsSeq rankingMarker.data line) = none := hfind
    simp [parseDlg, hc', hfind']
  · intro c line q hc hfind hq
    have hc' : containsSeq zeroPoseSentinel.data c.data = false := hc
    have hfind' : (splitLines c).find?
        (fun line => containsSeq rankingMarker.data line) = some line := hfind
    cases hget : (pySplit line).get? 3 with
    | none => rw [hget] at hq; cases hq
    | some field =>
      rw [hget] at hq
      simp only [Option.some_bind] at hq
      rw [List.get?_eq_getElem?] at hget
      simp [parseDlg, hc', hfind', hget, hq]
  · intro dlg f n h
    exact parseLoop_ok_of_pointwise dlg f (List.range n)
      (fun i hi => h i (List.mem_range.mp hi))
  · intro c line hc hfind hnone
    have hc' : containsSeq zeroPoseSentinel.data c.data = false := hc
    have hfind' : (splitLines c).find?
        (fun line => containsSeq rankingMarker.data line) = some line := hfind
    cases hget : (pySplit line).get? 3 with
    | none =>
      rw [List.get?_eq_getElem?] at hget
      exact ⟨.indexError, by simp [parseDlg, hc', hfind', hget]⟩
    | some field =>
      rw [hget] at hnone
      simp only [Option.some_bind] at hnone
      rw [List.get?_eq_getElem?] at hget
      exact ⟨.valueError, by simp [parseDlg, hc', hfind', hget, hnone]⟩

/-- Counterexample to C2 as stated: a present, unparseable log — its RANKING
line has fewer than 4 whitespace fields — makes the parser raise
(`IndexError`) instead of degrading to 0. -/
theorem C2_dlg_parse_cex : parseDlg (some "RANKING") = .error .indexError :=
  rfl

/-- Witness for C2 at concrete log contents: the 4th whitespace field of the
first RANKING line of `"x\nRANKING 5 2 7 1"` is `7`. -/
theorem C2_dlg_parse_wit :
    parseDlg (some "a 0.000   0.000   0.000  0.00  0.00 b") = .ok 0 ∧
    parseDlg (some "x\nRANKING 5 2 7 1") = .ok ((7 : ℕ) : ℚ) ∧
    parseLoop (fun _ => none) (List.range 2)
      = .ok ((List.range 2).map (fun _ => (0 : ℚ))) :=
  ⟨C2_dlg_parse.2.1 _ rfl,
   C2_dlg_parse.2.2.2.1 "x\nRANKING 5 2 7 1"
     "RANKING 5 2 7 1".toList ((7 : ℕ) : ℚ) rfl rfl rfl,
   C2_dlg_parse.2.2.2.2.1 (fun _ => none) (fun _ => 0) 2
     (fun _ _ => C2_dlg_parse.1)⟩

/-- C3 (amended): the docking engine is invoked exactly once per call, with
`timeout=TIMEOUT` for a single-string input (which equals
`TIMEOUT * max(1, 1)`) and `timeout=TIMEOUT * n` for a batch of `n` — equal to
`TIMEOUT * max(1, n)` whenever the batch is nonempty; an expired timeout is
suppressed and the call proceeds to log parsing (the result is the same as if
the engine had not timed out, given the same log files). -/
theorem C3_dock_once_timeout (inp : SmilesIn) (s : String) (l : List String)
    (env : DockEnv) (hl : l ≠ []) :
    (dockCmds inp).length = 1 ∧
    dockCmds (.single s) = [⟨TIMEOUT * max 1 1, false⟩] ∧
    dockCmds (.batch l) = [⟨TIMEOUT * max 1 l.length, true⟩] ∧
    smiles2affinityRun inp env = smiles2affinityRun inp ⟨false, env.dlg⟩ := by
  refine ⟨?_, rfl, ?_, ?_⟩
  · cases inp <;> rfl
  · have h1 : max 1 l.length = l.length :=
      Nat.max_eq_right (List.length_pos.mpr hl)
    rw [h1]
    rfl
  · unfold smiles2affinityRun
    rw [suppressTimeout_runDocking, suppressTimeout_runDocking]

/-- Counterexample to C3 as stated: for the empty batch the code passes
`timeout=TIMEOUT * 0 = 0`, not `TIMEOUT * max(1, 0) = TIMEOUT`. -/
theorem C3_dock_once_timeout_cex :
    dockCmds (.batch []) ≠ [⟨TIMEOUT * max 1 ([] : List String).length, true⟩]
    := by decide

/-- Witness for C3 at concrete inputs. -/
theorem C3_dock_once_timeout_wit :
    (dockCmds (.batch ["a", "b"])).length = 1 ∧
    dockCmds (.single "c") = [⟨TIMEOUT * max 1 1, false⟩] ∧
    dockCmds (.batch ["a", "b"])
      = [⟨TIMEOUT * max 1 (["a", "b"] : List String).length, true⟩] ∧
    smiles2affinityRun (.batch ["a", "b"]) ⟨true, fun _ => none⟩
      = smiles2affinityRun (.batch ["a", "b"]) ⟨false, fun _ => none⟩ :=
  C3_dock_once_timeout (.batch ["a", "b"]) "c" ["a", "b"]
    ⟨true, fun _ => none⟩ (by simp)

/-- C6: batch-shape preservation across the oracle registry.  The external
TDC oracles are spec-modelled as elementwise scorers, for which
`oracle([s]) = [oracle(s)]`, output length equals input length, and the i-th
output is the score of the i-th input; `smiles2uplogp` is literally such an
elementwise oracle; the affinity pipeline satisfies the same shape contract
whenever it returns: single-vs-singleton-batch agreement, per-index alignment
with the per-index log parse, and scalar-out iff single-in. -/
theorem C6_batch_shape :
    (∀ (f : String → ℚ) (s : String),
      elementwiseOracle f (.single s) = .scalar (f s) ∧
      elementwiseOracle f (.batch [s]) = .list [f s]) ∧
    (∀ (f : String → ℚ) (l : List String),
      ∃ out, elementwiseOracle f (.batch l) = .list out ∧
        out.length = l.length ∧ ∀ k : Nat, out[k]? = (l[k]?).map f) ∧
    (∀ (parseMol : String → Option Mol) (logp : Mol → ℚ) (sa : String → ℚ)
      (inp : SmilesIn),
      smiles2uplogpOracle parseMol logp sa inp
        = elementwiseOracle (_smiles2uplogp parseMol logp sa) inp) ∧
    (∀ (env : DockEnv) (s : String) (q : ℚ),
      smiles2affinityRun (.single s) env = .ok (.scalar q) ↔
      smiles2affinityRun (.batch [s]) env = .ok (.list [q])) ∧
    (∀ (env : DockEnv) (l : List String) (out : List ℚ),
      smiles2affinityRun (.batch l) env = .ok (.list out) →
      out.length = l.length ∧
      ∀ k : Nat, k < l.length →
        ∃ q, out[k]? = some q ∧ parseDlg (env.dlg k) = .ok q) ∧
    (∀ (env : DockEnv) (inp : SmilesIn) (out : ScoreOut),
      smiles2affinityRun inp env = .ok out →
      ((∃ s, inp = .single s) ↔ (∃ q, out = .scalar q))) := by
  refine ⟨fun f s => ⟨rfl, rfl⟩, ?_, ?_, ?_, ?_, ?_⟩
  · intro f l
    exact ⟨l.map f, rfl, by simp, by simp⟩
  · intro parseMol logp sa inp
    cases inp <;> rfl
  · intro env s q
    unfold smiles2affinityRun
    rw [suppressTimeout_runDocking]
    cases hp : parseLoop env.dlg (List.range 1) with
    | error e => simp [SmilesIn.toList, hp]
    | ok res =>
      obtain ⟨hlen, -⟩ := parseLoop_ok_inv env.dlg _ _ hp
      simp only [List.length_range] at hlen
      obtain ⟨a, rfl⟩ := List.length_eq_one.mp hlen
      simp [SmilesIn.toList, hp, eq_comm]
  · intro env l out h
    unfold smiles2affinityRun at h
    rw [suppressTimeout_runDocking] at h
    cases hp : parseLoop env.dlg (List.range (SmilesIn.batch l).toList.length)
      with
    | error e => rw [hp] at h; cases h
    | ok res =>
      rw [hp] at h
      simp only [Except.ok.injEq, ScoreOut.list.injEq] at h
      subst h
      obtain ⟨hlen, hptw⟩ := parseLoop_ok_inv env.dlg _ _ hp
      simp only [List.length_range, SmilesIn.toList] at hlen hptw
      refine ⟨hlen, fun k hk => hptw k k ?_⟩
      simp [List.getElem?_range, hk]
  · intro env inp out h
    unfold smiles2affinityRun at h
    rw [suppressTimeout_runDocking] at h
    cases hp : parseLoop env.dlg (List.range inp.toList.length) with
    | error e => rw [hp] at h; cases h
    | ok res =>
      rw [hp] at h
      cases inp with
      | single s =>
        simp only [Except.ok.injEq] at h
        subst h
        exact ⟨fun _ => ⟨_, rfl⟩, fun _ => ⟨s, rfl⟩⟩
      | batch l =>
        simp only [Except.ok.injEq] at h
        subst h
        constructor
        · rintro ⟨s, hs⟩; cases hs
        · rintro ⟨q, hq⟩; cases hq

/-- Witness for C6: the affinity shape contract at a concrete environment
with both log files absent. -/
theorem C6_batch_shape_wit :
    ([0, 0] : List ℚ).length = (["a", "b"] : List String).length ∧
    ∀ k : Nat, k < (["a", "b"] : List String).length →
      ∃ q, (([0, 0] : List ℚ))[k]? = some q ∧
        parseDlg ((DockEnv.mk false (fun _ => none)).dlg k) = .ok q :=
  C6_batch_shape.2.2.2.2.1 ⟨false, fun _ => none⟩ ["a", "b"] [0, 0] rfl

end ChemFlow
